import Mathlib

/-!
Shallow embedding of the GameTracker session store and migration engine
(`session_management.py`, `session_data.py`, `session_ui.py`,
`data_management.py`, `utilities.py`) with proofs about the claims of the
specification.  Python dicts with a fixed key vocabulary are modelled as
structures with `Option` fields (`none` = key absent), Python lists as
`List`, machine integers as `Int`/`Nat`, and `datetime` values as a record
of calendar components with exact microsecond arithmetic.
-/

set_option maxHeartbeats 1000000
set_option maxRecDepth 2000

namespace GameTracker

/-! ### Python-style string helpers -/

/-- The ASCII whitespace characters recognised by Python `str.strip()` and
the regex class `\s`. -/
def pyIsSpace (c : Char) : Bool :=
  c = ' ' || c = '\t' || c = '\n' || c = '\r' || c = '\x0b' || c = '\x0c'

/-- Python `str.strip()` (restricted to ASCII whitespace). -/
def pyStrip (s : String) : String :=
  String.mk (((s.data.dropWhile pyIsSpace).reverse.dropWhile pyIsSpace).reverse)

/-- Python `needle in hay` on lists of characters. -/
def listContainsSub (hay needle : List Char) : Bool :=
  match hay with
  | [] => needle.isEmpty
  | _ :: t => needle.isPrefixOf hay || listContainsSub t needle

/-- Python substring test `needle in hay`. -/
def pyContains (hay needle : String) : Bool :=
  listContainsSub hay.data needle.data

/-- Split a character list at every occurrence of `sep` (Python
`str.split(sep)` semantics: empty pieces are kept). -/
def splitChar (sep : Char) : List Char → List (List Char)
  | [] => [[]]
  | c :: rest =>
    match splitChar sep rest with
    | [] => [[]]
    | cur :: done => if c = sep then [] :: cur :: done else (c :: cur) :: done

/-- Python `s.split(sep)` for a one-character separator. -/
def pySplit (s : String) (sep : Char) : List String :=
  (splitChar sep s.data).map String.mk

/-- Python `sep.join(xs)`. -/
def pyJoin (sep : String) : List String → String
  | [] => ""
  | [x] => x
  | x :: xs => x ++ sep ++ pyJoin sep xs

/-- Python `f"{n:02d}"`: left pad with a zero to width two (a sign counts
toward the width, exactly as in Python). -/
def pyFmt2 (n : Int) : String :=
  if 0 ≤ n ∧ n < 10 then "0" ++ toString n else toString n

/-- Zero-pad a natural number to two digits. -/
def padNat2 (n : Nat) : String :=
  if n < 10 then "0" ++ toString n else toString n

/-- Zero-pad a natural number to four digits. -/
def padNat4 (n : Nat) : String :=
  if n < 10 then "000" ++ toString n
  else if n < 100 then "00" ++ toString n
  else if n < 1000 then "0" ++ toString n
  else toString n

/-- Numeric value of a list of decimal digit characters. -/
def digitsToNat (l : List Char) : Nat :=
  l.foldl (fun acc c => acc * 10 + (c.toNat - '0'.toNat)) 0

/-- Python `int(s)`: optional surrounding whitespace, optional sign, then
decimal digits. -/
def pyInt (s : String) : Option Int :=
  match (pyStrip s).data with
  | '-' :: ds =>
      if ds ≠ [] ∧ ds.all Char.isDigit then some (-(digitsToNat ds : Int)) else none
  | '+' :: ds =>
      if ds ≠ [] ∧ ds.all Char.isDigit then some (digitsToNat ds : Int) else none
  | ds =>
      if ds ≠ [] ∧ ds.all Char.isDigit then some (digitsToNat ds : Int) else none

/-! ### datetime -/

/-- A Python `datetime.datetime` value: validated calendar components with
microsecond precision. -/
structure DateTime where
  year : Nat
  month : Nat
  day : Nat
  hour : Nat
  minute : Nat
  second : Nat
  micro : Nat
  deriving Repr, DecidableEq

def isLeapYear (y : Nat) : Bool :=
  y % 4 = 0 && (y % 100 ≠ 0 || y % 400 = 0)

def daysInMonth (y m : Nat) : Nat :=
  if m = 2 then (if isLeapYear y then 29 else 28)
  else if m = 4 ∨ m = 6 ∨ m = 9 ∨ m = 11 then 30
  else 31

/-- Day count of a Gregorian calendar date (days since 0000-03-01, the
standard civil-from-days construction; only differences of this value are
ever used, so the choice of epoch is irrelevant). -/
def civilDays (y m d : Nat) : Nat :=
  let y1 := if m ≤ 2 then y - 1 else y
  let era := y1 / 400
  let yoe := y1 - era * 400
  let doy := (153 * (if m > 2 then m - 3 else m + 9) + 2) / 5 + d - 1
  let doe := yoe * 365 + yoe / 4 - yoe / 100 + doy
  era * 146097 + doe

/-- Seconds-since-epoch of a `DateTime` (ignoring its microseconds). -/
def toSec (dt : DateTime) : Int :=
  ((civilDays dt.year dt.month dt.day) * 86400 + dt.hour * 3600
    + dt.minute * 60 + dt.second : Nat)

/-- Microseconds-since-epoch of a `DateTime`.  `datetime` subtraction and
comparison agree with subtraction and comparison of this value. -/
def toMicro (dt : DateTime) : Int :=
  toSec dt * 1000000 + (dt.micro : Nat)

/-- Value in microseconds of up to six fractional-second digits. -/
def fracMicro (ds : List Char) : Nat :=
  digitsToNat ds * 10 ^ (6 - ds.length)

/-- `datetime.fromisoformat` on the canonical shapes produced by
`datetime.isoformat()`: `YYYY-MM-DD`, optionally followed by `'T'` or `' '`
and `HH:MM`, `HH:MM:SS` or `HH:MM:SS.ffffff`.  Returns `none` (the
`ValueError` case) on anything else. -/
def fromisoformat (s : String) : Option DateTime :=
  match s.data with
  | y1 :: y2 :: y3 :: y4 :: '-' :: m1 :: m2 :: '-' :: d1 :: d2 :: rest =>
    if ([y1, y2, y3, y4, m1, m2, d1, d2].all Char.isDigit) then
      let y := digitsToNat [y1, y2, y3, y4]
      let mo := digitsToNat [m1, m2]
      let d := digitsToNat [d1, d2]
      if 1 ≤ y ∧ 1 ≤ mo ∧ mo ≤ 12 ∧ 1 ≤ d ∧ d ≤ daysInMonth y mo then
        match rest with
        | [] => some ⟨y, mo, d, 0, 0, 0, 0⟩
        | sep :: h1 :: h2 :: ':' :: n1 :: n2 :: timeRest =>
          if (sep = 'T' ∨ sep = ' ') ∧ ([h1, h2, n1, n2].all Char.isDigit) then
            let h := digitsToNat [h1, h2]
            let mi := digitsToNat [n1, n2]
            if h ≤ 23 ∧ mi ≤ 59 then
              match timeRest with
              | [] => some ⟨y, mo, d, h, mi, 0, 0⟩
              | ':' :: s1 :: s2 :: secRest =>
                if ([s1, s2].all Char.isDigit) then
                  let sec := digitsToNat [s1, s2]
                  if sec ≤ 59 then
                    match secRest with
                    | [] => some ⟨y, mo, d, h, mi, sec, 0⟩
                    | '.' :: frac =>
                      if frac ≠ [] ∧ frac.length ≤ 6 ∧ frac.all Char.isDigit then
                        some ⟨y, mo, d, h, mi, sec, fracMicro frac⟩
                      else none
                    | _ => none
                  else none
                else none
              | _ => none
            else none
          else none
        | _ => none
      else none
    else none
  | _ => none

/-- `dt.strftime('%Y-%m-%d %H:%M:%S')`. -/
def strftimeSpace (dt : DateTime) : String :=
  padNat4 dt.year ++ "-" ++ padNat2 dt.month ++ "-" ++ padNat2 dt.day ++ " "
    ++ padNat2 dt.hour ++ ":" ++ padNat2 dt.minute ++ ":" ++ padNat2 dt.second

/-- `dt.strftime('%Y%m%d%H%M%S')`. -/
def strftimeCompact (dt : DateTime) : String :=
  padNat4 dt.year ++ padNat2 dt.month ++ padNat2 dt.day
    ++ padNat2 dt.hour ++ padNat2 dt.minute ++ padNat2 dt.second

/-- `dt.isoformat()`: seconds always printed, microseconds only when
nonzero (six digits). -/
def isoformatDT (dt : DateTime) : String :=
  padNat4 dt.year ++ "-" ++ padNat2 dt.month ++ "-" ++ padNat2 dt.day ++ "T"
    ++ padNat2 dt.hour ++ ":" ++ padNat2 dt.minute ++ ":" ++ padNat2 dt.second
    ++ (if dt.micro ≠ 0 then "." ++
          padNat4 (dt.micro / 100) ++ padNat2 (dt.micro % 100) else "")

/-! ### Pause events and pause migration (`session_management.py`) -/

/-- One entry of a session's `pauses` list: a dict over the keys
`paused_at`, `resumed_at`, `elapsed_so_far`, `pause_duration`,
`incomplete` (an `Option` field is `none` when the key is absent; the
`incomplete` key, when present, always holds `True`). -/
structure PauseEvent where
  paused_at : Option String
  resumed_at : Option String
  elapsed_so_far : Option String
  pause_duration : Option String
  incomplete : Bool
  deriving Repr, DecidableEq

/-- The `pause_duration` computation of
`migrate_pauses_to_integrated_structure`: parse both timestamps, take the
`timedelta`, and format it with `divmod` by 3600 and 60 (exact integer
arithmetic on microseconds; `"00:00:00"` on a parse failure). -/
def computePauseDuration (p r : String) : String :=
  match fromisoformat p, fromisoformat r with
  | some dp, some dr =>
      let diff : Int := toMicro dr - toMicro dp
      let hours := diff.ediv 3600000000
      let rem := diff.emod 3600000000
      let minutes := rem.ediv 60000000
      let seconds := (rem.emod 60000000).ediv 1000000
      pyFmt2 hours ++ ":" ++ pyFmt2 minutes ++ ":" ++ pyFmt2 seconds
  | _, _ => "00:00:00"

/-- The event loop of `migrate_pauses_to_integrated_structure`.  The
second argument is `current_pause`, carried as its `paused_at` and
`elapsed_so_far` values (the only keys it holds while open). -/
def migratePausesLoop : List PauseEvent → Option (String × String) → List PauseEvent
  | [], none => []
  | [], some (p, el) => [⟨some p, none, some el, none, true⟩]
  | ev :: rest, cur =>
    match ev.paused_at with
    | some p => migratePausesLoop rest (some (p, ev.elapsed_so_far.getD "00:00:00"))
    | none =>
      match ev.resumed_at, cur with
      | some r, some (p, el) =>
          ⟨some p, some r, some el, some (computePauseDuration p r), false⟩
            :: migratePausesLoop rest none
      | _, _ => migratePausesLoop rest cur

/-- `migrate_pauses_to_integrated_structure(session_pauses)`. -/
def migrate_pauses_to_integrated_structure (l : List PauseEvent) : List PauseEvent :=
  migratePausesLoop l none

/-- The old-format detection loop of `migrate_all_game_sessions`: some
event carries exactly one of `paused_at` / `resumed_at`. -/
def needsPauseMigration (l : List PauseEvent) : Bool :=
  l.any (fun ev => (ev.paused_at.isSome && !ev.resumed_at.isSome)
    || (ev.resumed_at.isSome && !ev.paused_at.isSome))

/-! ### Sessions and feedback (`session_management.py`) -/

/-- A legacy `session['rating']` dict over the keys `stars`, `tags`,
`comment`, `timestamp`. -/
structure SessionRating where
  stars : Option Int
  tags : Option (List String)
  comment : Option String
  timestamp : Option String
  deriving Repr, DecidableEq

/-- Python truthiness of the rating dict: a dict is truthy iff nonempty. -/
def SessionRating.truthy (r : SessionRating) : Bool :=
  r.stars.isSome || r.tags.isSome || r.comment.isSome || r.timestamp.isSome

/-- `feedback['rating']` in the unified format: always carries `stars`,
`tags` and `timestamp`. -/
structure FeedbackRating where
  stars : Int
  tags : List String
  timestamp : String
  deriving Repr, DecidableEq

/-- A unified `session['feedback']` object. -/
structure Feedback where
  text : String
  timestamp : String
  rating : Option FeedbackRating
  deriving Repr, DecidableEq

/-- A session dict.  `extra` holds any further keys, carried verbatim
(`migrate_session_to_unified_feedback` copies every key other than `note`
and `rating`). -/
structure Session where
  start : Option String
  «end» : Option String
  duration : Option String
  note : Option String
  rating : Option SessionRating
  feedback : Option Feedback
  pauses : Option (List PauseEvent)
  extra : List (String × String)
  deriving Repr, DecidableEq

/-- The per-line filter of `migrate_session_to_unified_feedback`:
`re.match("^Rating:\s*[★☆]+.*Tags:", line)` or
(`line.startswith("Rating:")` and a star character occurs in the line). -/
def isEmbeddedRatingLine (ls : String) : Bool :=
  (if "Rating:".data.isPrefixOf ls.data then
    match (ls.data.drop 7).dropWhile pyIsSpace with
    | c :: tail => (c = '★' || c = '☆') && listContainsSub tail "Tags:".data
    | [] => false
  else false)
  || ("Rating:".data.isPrefixOf ls.data && (pyContains ls "★" || pyContains ls "☆"))

/-- Split the old note on newlines, drop embedded-rating lines, rejoin and
strip. -/
def cleanNoteText (note : String) : String :=
  pyStrip (pyJoin "\n"
    ((pySplit note '\n').filter (fun line => !(isEmbeddedRatingLine (pyStrip line)))))

/-- The `feedback_obj['rating']` block of
`migrate_session_to_unified_feedback`: move `stars`/`tags` over when the
legacy rating dict is truthy and carries `stars`. -/
def legacyRatingPart (fbTimestamp : String) : Option SessionRating → Option FeedbackRating
  | some r =>
    if r.truthy && r.stars.isSome then
      some ⟨r.stars.getD 0, r.tags.getD [], r.timestamp.getD fbTimestamp⟩
    else none
  | none => none

/-- The note block: the cleaned note, when the legacy note is nonempty and
survives cleaning. -/
def legacyNoteParts (note : Option String) : List String :=
  if note.getD "" ≠ "" then
    let clean_note := cleanNoteText (note.getD "")
    if clean_note ≠ "" then [clean_note] else []
  else []

/-- The rating-comment block: append `"Rating comment: …"` when a truthy
legacy rating carries a nonempty comment not already contained in the
cleaned note. -/
def legacyCommentParts (parts1 : List String) : Option SessionRating → List String
  | some r =>
    match r.comment with
    | some cm =>
      if r.truthy && cm ≠ "" then
        let clean_note_text := parts1.headD ""
        if cm ≠ clean_note_text ∧ pyContains clean_note_text cm = false then
          parts1 ++ ["Rating comment: " ++ cm]
        else parts1
      else parts1
    | none => parts1
  | none => parts1

/-- The synthesized `feedback` object: `none` when there is neither text
nor a rating (the key is then not added to the session). -/
def buildLegacyFeedback (fbTimestamp : String) (note : Option String)
    (rating : Option SessionRating) : Option Feedback :=
  let ratingPart := legacyRatingPart fbTimestamp rating
  let parts := legacyCommentParts (legacyNoteParts note) rating
  let text := if parts ≠ [] then String.intercalate "\n\n" parts else ""
  if text ≠ "" || ratingPart.isSome then some ⟨text, fbTimestamp, ratingPart⟩ else none

/-- `migrate_session_to_unified_feedback(session)`; `now` stands for
`datetime.now().isoformat()`.  A session already carrying `feedback` is
returned unchanged; otherwise `note`/`rating` are removed and the unified
`feedback` object (when nonempty) is attached. -/
def migrate_session_to_unified_feedback (now : String) (session : Session) : Session :=
  if session.feedback.isSome then session
  else
    { session with
        note := none, rating := none,
        feedback := buildLegacyFeedback (session.start.getD now) session.note session.rating }

/-- The per-session body of `migrate_all_game_sessions`: unified-feedback
migration followed by pause migration when the pause list is nonempty and
the old-format check fires. -/
def migrateOneSession (now : String) (s : Session) : Session :=
  let ms := migrate_session_to_unified_feedback now s
  match ms.pauses with
  | some ps =>
    if ps ≠ [] ∧ needsPauseMigration ps then
      { ms with pauses := some (migrate_pauses_to_integrated_structure ps) }
    else ms
  | none => ms

/-! ### Game rows (`row[0]` … `row[9]` of the in-memory table) -/

/-- `row[3]` may hold an `HH:MM:SS` string or a `timedelta` (modelled by
its whole number of seconds). -/
inductive PlaytimeValue
  | str (s : String)
  | td (totalSeconds : Int)
  deriving Repr, DecidableEq

/-- One `statusHistory` entry. -/
structure StatusChange where
  fromStatus : Option String
  toStatus : String
  timestamp : String
  deriving Repr, DecidableEq

/-- A game-level rating dict. -/
structure GameRating where
  stars : Option Int
  tags : Option (List String)
  comment : Option String
  timestamp : Option String
  auto_calculated : Option Bool
  deriving Repr, DecidableEq

/-- A game row.  `sessions`/`statusHistory` are `none` when the list slot
is absent or `None`. -/
structure GameRow where
  name : String
  releaseDate : String
  platform : String
  totalPlaytime : PlaytimeValue
  status : String
  owned : String
  lastPlayed : Option String
  sessions : Option (List Session)
  statusHistory : Option (List StatusChange)
  rating : Option GameRating
  deriving Repr, DecidableEq

/-- The per-game body of `migrate_all_game_sessions`: rewrite the session
list when it is present and nonempty, keep every other field. -/
def migrateOneGame (now : String) (g : GameRow) : GameRow :=
  match g.sessions with
  | some sessions =>
    if sessions ≠ [] then
      { g with sessions := some (sessions.map (migrateOneSession now)) }
    else g
  | none => g

/-- `migrate_all_game_sessions(data_with_indices)`: migrate every game,
keeping indices and order. -/
def migrate_all_game_sessions (now : String) (data : List (Nat × GameRow)) :
    List (Nat × GameRow) :=
  data.map (fun pair => (pair.1, migrateOneGame now pair.2))

/-! ### Playtime arithmetic (`utilities.py`, `session_management.py`,
`session_data.py`) -/

/-- Parse `"H:M:S"` with Python `h, m, s = map(int, s.split(':'))`:
exactly three colon-separated integers, as a signed second count. -/
def parseHMS3 (s : String) : Option Int :=
  match pySplit s ':' with
  | [a, b, c] =>
    match pyInt a, pyInt b, pyInt c with
    | some h, some m, some sec => some (h * 3600 + m * 60 + sec)
    | _, _, _ => none
  | _ => none

/-- Parse `"H:M"` with Python `h, m = map(int, s.split(':'))`: exactly two
colon-separated integers, as a signed second count. -/
def parseHM2 (s : String) : Option Int :=
  match pySplit s ':' with
  | [a, b] =>
    match pyInt a, pyInt b with
    | some h, some m => some (h * 3600 + m * 60)
    | _, _ => none
  | _ => none

/-- `f'{hours:02}:{minutes:02}:{seconds:02}'` after
`divmod(total_seconds, 3600)` and `divmod(remainder, 60)` on the integer
second count of a `timedelta`. -/
def formatSecondsHMS (n : Int) : String :=
  pyFmt2 (n.ediv 3600) ++ ":" ++ pyFmt2 ((n.emod 3600).ediv 60) ++ ":"
    ++ pyFmt2 ((n.emod 3600).emod 60)

/-- `format_timedelta_with_seconds(td)` from `utilities.py`: a `timedelta`
is formatted directly; a string is first converted through the
three-part / two-part `int` parse, with `"00:00:00"` on failure. -/
def format_timedelta_with_seconds : PlaytimeValue → String
  | .td secs => formatSecondsHMS secs
  | .str s =>
    match pySplit s ':' with
    | [a, b, c] =>
      match pyInt a, pyInt b, pyInt c with
      | some h, some m, some sec => formatSecondsHMS (h * 3600 + m * 60 + sec)
      | _, _, _ => "00:00:00"
    | [a, b] =>
      match pyInt a, pyInt b with
      | some h, some m => formatSecondsHMS (h * 3600 + m * 60)
      | _, _ => "00:00:00"
    | _ => "00:00:00"

/-- The `current_time` computation of `update_time_and_date`
(`session_management.py`): falsy slot → zero; `timedelta` → itself;
string → try `HH:MM:SS`, then `HH:MM`, then zero.  (A `timedelta` is falsy
iff zero, so folding the falsy case over both branches is exact.) -/
def currentTimeSecondsUpdate : PlaytimeValue → Int
  | .td secs => secs
  | .str s =>
    if s ≠ "" then
      match parseHMS3 s with
      | some v => v
      | none =>
        match parseHM2 s with
        | some v => v
        | none => 0
    else 0

/-- The `current_time` computation of `add_manual_session_to_game`
(`session_data.py`): like the above but with no `HH:MM` fallback. -/
def currentTimeSecondsManual : PlaytimeValue → Int
  | .td secs => secs
  | .str s =>
    if s ≠ "" then
      match parseHMS3 s with
      | some v => v
      | none => 0
    else 0

/-- The loop body of `get_latest_session_end_time`: keep the later of the
running latest and this session's parseable `end` (sessions with a missing
or unparseable `end` are skipped). -/
def latestEndStep (acc : Option DateTime) (s : Session) : Option DateTime :=
  match s.«end» with
  | some e =>
    match fromisoformat e with
    | some dt =>
      match acc with
      | none => some dt
      | some cur => if toMicro dt > toMicro cur then some dt else acc
    | none => acc
  | none => acc

/-- `get_latest_session_end_time(sessions)` (`session_data.py`): the
strictly latest parseable `end` timestamp, skipping sessions without one. -/
def get_latest_session_end_time (sessions : List Session) : Option DateTime :=
  sessions.foldl latestEndStep none

/-- The row mutation performed by `update_time_and_date`
(`session_management.py`): set `row[6]` to `now`, add `added_time` to the
parsed `row[3]`, and append the session (when given) to `row[7]`. -/
def update_time_and_date_row (now : DateTime) (addedSeconds : Int)
    (session : Option Session) (g : GameRow) : GameRow :=
  let g1 := { g with lastPlayed := some (strftimeSpace now) }
  let total := currentTimeSecondsUpdate g.totalPlaytime + addedSeconds
  let g2 := { g1 with totalPlaytime := .str (format_timedelta_with_seconds (.td total)) }
  match session with
  | some s => { g2 with sessions := some (g2.sessions.getD [] ++ [s]) }
  | none => g2

/-- `update_time_and_date(row_index, added_time, session, data)` with
`data_storage = None`: apply the row mutation at `row_index`. -/
def update_time_and_date (now : DateTime) (row_index : Nat) (addedSeconds : Int)
    (session : Option Session) (data : List (Nat × GameRow)) : List (Nat × GameRow) :=
  match data.get? row_index with
  | some (idx, g) => data.set row_index (idx, update_time_and_date_row now addedSeconds session g)
  | none => data

/-- The row mutation performed by `add_manual_session_to_game`
(`session_data.py`) on the matching game: append the session, and — only
when `session['duration']` splits into exactly three int parts — add it to
the parsed `row[3]` and refresh `row[6]` from the latest session end
(falling back to `now`). -/
def add_manual_session_row (now : DateTime) (session : Session) (g : GameRow) : GameRow :=
  let g0 := { g with sessions := some (g.sessions.getD [] ++ [session]) }
  match session.duration with
  | some ds =>
    match parseHMS3 ds with
    | some dur =>
      let total := currentTimeSecondsManual g.totalPlaytime + dur
      let g1 := { g0 with totalPlaytime := .str (format_timedelta_with_seconds (.td total)) }
      match get_latest_session_end_time (g0.sessions.getD []) with
      | some t => { g1 with lastPlayed := some (strftimeSpace t) }
      | none => { g1 with lastPlayed := some (strftimeSpace now) }
    | none => g0
  | none => g0

/-- `add_manual_session_to_game(game_name, session, data)` with
`data_storage = None`: mutate the first row whose name matches and stop. -/
def add_manual_session_to_game (now : DateTime) (game_name : String)
    (session : Session) : List (Nat × GameRow) → List (Nat × GameRow)
  | [] => []
  | (idx, g) :: rest =>
    if g.name = game_name then (idx, add_manual_session_row now session g) :: rest
    else (idx, g) :: add_manual_session_to_game now game_name session rest

/-! ### Save and load (`data_management.py`) -/

/-- One entry of the `games` array of a `.gmd` document. -/
structure GameRecord where
  name : String
  release_date : String
  platform : String
  time_played : String
  status : String
  owned : Bool
  last_played : Option String
  sessions : List Session
  status_history : List StatusChange
  rating : Option GameRating
  deriving Repr, DecidableEq

/-- The top-level JSON object written by `save_to_gmd`. -/
structure GmdFile where
  games : List GameRecord
  last_modified : String
  feedback_format_version : String
  pause_format_version : String
  deriving Repr, DecidableEq

/-- The per-row serialisation of `save_to_gmd`: each `row[i] if row[i]
else default` guard is kept as in the source (on strings it is the
identity, since the falsy string is `''`). -/
def save_game_record (g : GameRow) : GameRecord :=
  let time_played := match g.totalPlaytime with
    | .td secs => format_timedelta_with_seconds (.td secs)
    | .str s => s
  { name := if g.name ≠ "" then g.name else ""
    release_date := if g.releaseDate ≠ "" then g.releaseDate else ""
    platform := if g.platform ≠ "" then g.platform else ""
    time_played := if time_played ≠ "" then time_played else ""
    status := if g.status ≠ "" then g.status else "Pending"
    owned := g.owned = "✅"
    last_played := match g.lastPlayed with
      | some s => if s ≠ "" then some s else none
      | none => none
    sessions := g.sessions.getD []
    status_history := g.statusHistory.getD []
    rating := g.rating }

/-- `save_to_gmd(data, filename)`: the document written to disk (`now`
stands for `datetime.now().isoformat()`). -/
def save_to_gmd (now : String) (data : List (Nat × GameRow)) : GmdFile :=
  { games := data.map (fun p => save_game_record p.2)
    last_modified := now
    feedback_format_version := "unified"
    pause_format_version := "integrated" }

/-- The `time_played` normalisation of `load_from_gmd`: `HH:MM` is
promoted to `HH:MM:00`, a colon-bearing string that is not two or three
parts becomes `"00:00:00"`, and an `int` failure in the two-part case
(`ValueError`) makes the whole game row be skipped (`none`). -/
def loadNormalizeTimePlayed (tp : String) : Option String :=
  if tp ≠ "" ∧ pyContains tp ":" then
    match pySplit tp ':' with
    | [a, b] =>
      match pyInt a, pyInt b with
      | some h, some m => some (pyFmt2 h ++ ":" ++ pyFmt2 m ++ ":00")
      | _, _ => none
    | parts => if parts.length = 3 then some tp else some "00:00:00"
  else some tp

/-- The per-record deserialisation of `load_from_gmd`; `none` when the
record raises and is skipped. -/
def load_game_row (rec : GameRecord) : Option GameRow :=
  let status :=
    if rec.status = "Pending" ∨ rec.status = "In progress" ∨ rec.status = "Completed"
    then rec.status else "Pending"
  match loadNormalizeTimePlayed rec.time_played with
  | some tp =>
    some { name := rec.name
           releaseDate := rec.release_date
           platform := rec.platform
           totalPlaytime := .str tp
           status := status
           owned := if rec.owned then "✅" else ""
           lastPlayed := rec.last_played
           sessions := some rec.sessions
           statusHistory := some rec.status_history
           rating := rec.rating }
  | none => none

/-- `load_from_gmd(filename)` on an already-parsed document: the game rows
(numbered by their position in the file, skipped rows leaving a gap) and
the `needs_migration` flag. -/
def load_from_gmd (file : GmdFile) : List (Nat × GameRow) × Bool :=
  let needs_migration :=
    file.feedback_format_version ≠ "unified" ∨ file.pause_format_version ≠ "integrated"
  ((file.games.enum.filterMap
      (fun p => (load_game_row p.2).map (fun r => (p.1, r)))),
    needs_migration)

/-! ### The corrupted-file handler of `load_from_gmd` -/

/-- Contents of a file on disk: either a parseable `.gmd` document or
bytes that fail JSON decoding. -/
inductive FileData
  | valid (doc : GmdFile)
  | invalid (raw : String)
  deriving Repr, DecidableEq

/-- A directory: an association list from file names to contents. -/
abbrev FS := List (String × FileData)

def fsLookup (fs : FS) (name : String) : Option FileData :=
  match fs with
  | [] => none
  | (n, d) :: rest => if n = name then some d else fsLookup rest name

/-- The exception escaping `load_from_gmd`. -/
inductive LoadError
  | fileNotFound (msg : String)
  | otherError (msg : String)
  deriving Repr, DecidableEq

/-- `load_from_gmd` including its exception handlers, over the directory
model: a missing file raises `FileNotFoundError` (re-raised by the generic
handler); undecodable JSON renames the file to
`filename + ".backup-" + now.strftime('%Y%m%d%H%M%S')` and raises
`FileNotFoundError`; a decodable file is loaded normally. -/
def load_from_gmd_fs (now : DateTime) (fs : FS) (filename : String) :
    Except LoadError (List (Nat × GameRow) × Bool) × FS :=
  match fsLookup fs filename with
  | none => (.error (.fileNotFound filename), fs)
  | some (.valid doc) => (.ok (load_from_gmd doc), fs)
  | some (.invalid raw) =>
    let backupName := filename ++ ".backup-" ++ strftimeCompact now
    let fs2 := (backupName, FileData.invalid raw)
      :: fs.filter (fun p => p.1 ≠ filename ∧ p.1 ≠ backupName)
    (.error (.fileNotFound ("Invalid JSON in " ++ filename)), fs2)

/-! ### Manual session creation (`session_ui.py`) -/

def NEGATIVE_TAGS : List String :=
  ["Boring", "Frustrating", "Buggy", "Repetitive", "Confusing", "Grindy",
   "Unbalanced", "Broken", "Disappointing", "Overrated"]

def NEUTRAL_TAGS : List String :=
  ["Challenging", "Linear", "Open-world", "Short", "Long", "Casual",
   "Hardcore", "Nostalgic", "Retro", "Complex"]

def POSITIVE_TAGS : List String :=
  ["Fun", "Amazing", "Immersive", "Story-rich", "Rewarding", "Addictive",
   "Beautiful", "Creative", "Innovative", "Polished", "Relaxing", "Engaging",
   "Epic", "Hilarious", "Atmospheric", "Memorable", "Satisfying", "Unique",
   "Well-designed", "Masterpiece"]

def RATING_TAGS : List String := NEGATIVE_TAGS ++ NEUTRAL_TAGS ++ POSITIVE_TAGS

def digitVal (c : Char) : Nat := c.toNat - '0'.toNat

/-- CPython `strptime` `%m`: regex `1[0-2]|0[1-9]|[1-9]`. -/
def strptimeMonth : List Char → Option (Nat × List Char)
  | d1 :: d2 :: rest =>
    if d1 = '1' ∧ d2.isDigit ∧ digitVal d2 ≤ 2 then some (10 + digitVal d2, rest)
    else if d1 = '0' ∧ d2.isDigit ∧ 1 ≤ digitVal d2 then some (digitVal d2, rest)
    else if d1.isDigit ∧ 1 ≤ digitVal d1 then some (digitVal d1, d2 :: rest)
    else none
  | [d1] => if d1.isDigit ∧ 1 ≤ digitVal d1 then some (digitVal d1, []) else none
  | [] => none

/-- CPython `strptime` `%d`: regex `3[01]|[12]\d|0[1-9]|[1-9]`. -/
def strptimeDay : List Char → Option (Nat × List Char)
  | d1 :: d2 :: rest =>
    if d1 = '3' ∧ (d2 = '0' ∨ d2 = '1') then some (30 + digitVal d2, rest)
    else if (d1 = '1' ∨ d1 = '2') ∧ d2.isDigit then
      some (digitVal d1 * 10 + digitVal d2, rest)
    else if d1 = '0' ∧ d2.isDigit ∧ 1 ≤ digitVal d2 then some (digitVal d2, rest)
    else if d1.isDigit ∧ 1 ≤ digitVal d1 then some (digitVal d1, d2 :: rest)
    else none
  | [d1] => if d1.isDigit ∧ 1 ≤ digitVal d1 then some (digitVal d1, []) else none
  | [] => none

/-- CPython `strptime` `%H`: regex `2[0-3]|[0-1]\d|\d`. -/
def strptimeHour : List Char → Option (Nat × List Char)
  | d1 :: d2 :: rest =>
    if d1 = '2' ∧ d2.isDigit ∧ digitVal d2 ≤ 3 then some (20 + digitVal d2, rest)
    else if (d1 = '0' ∨ d1 = '1') ∧ d2.isDigit then
      some (digitVal d1 * 10 + digitVal d2, rest)
    else if d1.isDigit then some (digitVal d1, d2 :: rest)
    else none
  | [d1] => if d1.isDigit then some (digitVal d1, []) else none
  | [] => none

/-- CPython `strptime` `%M`: regex `[0-5]\d|\d`. -/
def strptimeMinute : List Char → Option (Nat × List Char)
  | d1 :: d2 :: rest =>
    if d1.isDigit ∧ digitVal d1 ≤ 5 ∧ d2.isDigit then
      some (digitVal d1 * 10 + digitVal d2, rest)
    else if d1.isDigit then some (digitVal d1, d2 :: rest)
    else none
  | [d1] => if d1.isDigit then some (digitVal d1, []) else none
  | [] => none

/-- `datetime.strptime(s, '%Y-%m-%d').date()`: full-string match, then
calendar validation by the `datetime` constructor. -/
def strptimeYmd (s : String) : Option (Nat × Nat × Nat) :=
  match s.data with
  | y1 :: y2 :: y3 :: y4 :: '-' :: rest =>
    if [y1, y2, y3, y4].all Char.isDigit then
      let y := digitsToNat [y1, y2, y3, y4]
      match strptimeMonth rest with
      | some (mo, '-' :: rest2) =>
        match strptimeDay rest2 with
        | some (d, []) => if 1 ≤ y ∧ d ≤ daysInMonth y mo then some (y, mo, d) else none
        | _ => none
      | _ => none
    else none
  | _ => none

/-- `datetime.strptime(s, '%H:%M').time()`: full-string match. -/
def strptimeHM (s : String) : Option (Nat × Nat) :=
  match strptimeHour s.data with
  | some (h, ':' :: rest) =>
    match strptimeMinute rest with
    | some (mi, []) => some (h, mi)
    | _ => none
  | _ => none

/-- The tag collection of the rating branch: keep the tags whose checkbox
is set. -/
def selectedTags (flags : List Bool) : List String :=
  (RATING_TAGS.zip flags).filterMap (fun p => if p.2 then some p.1 else none)

/-- The feedback block of the `Add Session` handler: when feedback is
enabled, build the feedback object (text stripped, optional rating from
the star count and checked tags) and attach it when it carries text or a
rating. -/
def attachManualFeedback (base : Session) (enableFeedback : Bool)
    (feedbackText : String) (enableRating : Bool) (stars : Int)
    (tagFlags : List Bool) (nowIso : String) : Session :=
  if enableFeedback then
    let fbText := pyStrip feedbackText
    let fb : Feedback :=
      ⟨if fbText ≠ "" then fbText else "", nowIso,
        if enableRating then some ⟨stars, selectedTags tagFlags, nowIso⟩ else none⟩
    if fb.text ≠ "" || fb.rating.isSome then { base with feedback := some fb }
    else base
  else base

/-- The `Add Session` branch of `show_manual_session_popup`
(`session_ui.py`): strip the four fields, reject when any is empty or
fails `strptime`, reject `end <= start`, otherwise build the session
record (with optional feedback).  `nowIso` stands for
`datetime.now().isoformat()`. -/
def show_manual_session_popup_add (startDate startTime endDate endTime : String)
    (enableFeedback : Bool) (feedbackText : String) (enableRating : Bool)
    (stars : Int) (tagFlags : List Bool) (nowIso : String) : Option Session :=
  let sd := pyStrip startDate
  let st := pyStrip startTime
  let ed := pyStrip endDate
  let et := pyStrip endTime
  if sd = "" ∨ st = "" ∨ ed = "" ∨ et = "" then none
  else
    match strptimeYmd sd, strptimeHM st, strptimeYmd ed, strptimeHM et with
    | some (sy, sm, sdd), some (sh, smi), some (ey, em, edd), some (eh, emi) =>
      let startDT : DateTime := ⟨sy, sm, sdd, sh, smi, 0, 0⟩
      let endDT : DateTime := ⟨ey, em, edd, eh, emi, 0, 0⟩
      if toMicro endDT ≤ toMicro startDT then none
      else
        let durStr := format_timedelta_with_seconds (.td (toSec endDT - toSec startDT))
        let base : Session :=
          ⟨some (isoformatDT startDT), some (isoformatDT endDT), some durStr,
            none, none, none, some [], []⟩
        some (attachManualFeedback base enableFeedback feedbackText enableRating
          stars tagFlags nowIso)
    | _, _, _, _ => none

/-! ### Definitions used in statements -/

/-- A legacy flat pause-event list: `paused_at`/`resumed_at` pairs in
sequence, optionally followed by one trailing unmatched `paused_at`. -/
def legacyPauseEvents (pairs : List (String × String)) (trailing : Option String) :
    List PauseEvent :=
  (pairs.flatMap (fun p =>
    [⟨some p.1, none, none, none, false⟩, ⟨none, some p.2, none, none, false⟩]))
  ++ (match trailing with
      | some t => [⟨some t, none, none, none, false⟩]
      | none => [])

/-- The paired intervals the specification expects from migrating
`legacyPauseEvents pairs trailing`. -/
def pairedIntervals (pairs : List (String × String)) (trailing : Option String) :
    List PauseEvent :=
  (pairs.map (fun p =>
    ⟨some p.1, some p.2, some "00:00:00", some (computePauseDuration p.1 p.2), false⟩))
  ++ (match trailing with
      | some t => [⟨some t, none, some "00:00:00", none, true⟩]
      | none => [])

/-- Number of events of a pause list carrying a `paused_at` key. -/
def countPausedAt (l : List PauseEvent) : Nat :=
  (l.filter (fun ev => ev.paused_at.isSome)).length

/-- No pause-start event arrives while a pause is already pending
(`opened` tracks whether `current_pause` is set): under this condition no
pending pause is ever overwritten by a later `paused_at`. -/
def noDoublePause : List PauseEvent → Bool → Bool
  | [], _ => true
  | ev :: rest, opened =>
    match ev.paused_at with
    | some _ => !opened && noDoublePause rest true
    | none =>
      match ev.resumed_at with
      | some _ => noDoublePause rest false
      | none => noDoublePause rest opened

/-- The per-game condition under which a second document migration is the
identity: no migrated session keeps a pause entry with exactly one of
`paused_at`/`resumed_at` (i.e. no incomplete pause survives). -/
def migrationSettled (now : String) (data : List (Nat × GameRow)) : Prop :=
  ∀ p ∈ data, ∀ l, p.2.sessions = some l → ∀ s ∈ l, ∀ ps,
    (migrateOneSession now s).pauses = some ps → needsPauseMigration ps = false

/-- Frame equality on sessions: migration may only touch `note`, `rating`,
`feedback` and `pauses`; `start`, `end`, `duration` and all other keys are
untouched. -/
def sessionFrameEq (s t : Session) : Prop :=
  t.start = s.start ∧ t.«end» = s.«end» ∧ t.duration = s.duration ∧ t.extra = s.extra

/-- Frame equality on game rows: every field except the session list is
unchanged, and the session list keeps its length and order with each
session frame-preserved. -/
def gameFrameEq (g h : GameRow) : Prop :=
  h.name = g.name ∧ h.releaseDate = g.releaseDate ∧ h.platform = g.platform
    ∧ h.totalPlaytime = g.totalPlaytime ∧ h.status = g.status ∧ h.owned = g.owned
    ∧ h.lastPlayed = g.lastPlayed ∧ h.statusHistory = g.statusHistory
    ∧ h.rating = g.rating
    ∧ match g.sessions, h.sessions with
      | none, none => True
      | some l, some l2 => List.Forall₂ sessionFrameEq l l2
      | _, _ => False

/-- Characterisation of the latest-end fold: the result is an attained
upper bound of every parseable session `end` (and of the starting
accumulator); a `none` result means nothing was parseable. -/
def latestEndChar (l : List Session) (acc res : Option DateTime) : Prop :=
  match res with
  | some dt =>
      ((acc = some dt) ∨ ∃ s, s ∈ l ∧ ∃ e, s.«end» = some e ∧ fromisoformat e = some dt)
      ∧ (∀ d, acc = some d → toMicro d ≤ toMicro dt)
      ∧ (∀ s ∈ l, ∀ e d, s.«end» = some e → fromisoformat e = some d →
          toMicro d ≤ toMicro dt)
  | none => acc = none ∧ ∀ s ∈ l, ∀ e, s.«end» = some e → fromisoformat e = none

/-- A game row already in the canonical on-disk shape, so that neither
`save_to_gmd` nor `load_from_gmd` normalises anything: the playtime is a
string that load leaves alone, the status is one of the three valid
values, the owned marker is the checkmark or empty, `lastPlayed` is absent
or nonempty, and the list slots actually hold lists. -/
def canonicalRow (g : GameRow) : Prop :=
  (match g.totalPlaytime with
   | .str s => s = "" ∨ pyContains s ":" = false ∨ (pySplit s ':').length = 3
   | .td _ => False)
  ∧ (g.status = "Pending" ∨ g.status = "In progress" ∨ g.status = "Completed")
  ∧ (g.owned = "✅" ∨ g.owned = "")
  ∧ (g.lastPlayed = none ∨ ∃ s, g.lastPlayed = some s ∧ s ≠ "")
  ∧ (∃ l, g.sessions = some l)
  ∧ (∃ h, g.statusHistory = some h)

/-- The combined `strptime` step of the `Add Session` handler: the parsed
start and end `datetime`s of the four (stripped) input fields. -/
def parsedManualInputs (startDate startTime endDate endTime : String) :
    Option (DateTime × DateTime) :=
  match strptimeYmd (pyStrip startDate), strptimeHM (pyStrip startTime),
      strptimeYmd (pyStrip endDate), strptimeHM (pyStrip endTime) with
  | some (sy, sm, sd), some (sh, smi), some (ey, em, ed), some (eh, emi) =>
      some (⟨sy, sm, sd, sh, smi, 0, 0⟩, ⟨ey, em, ed, eh, emi, 0, 0⟩)
  | _, _, _, _ => none

/-! ### Arithmetic lemmas -/

lemma ediv_eq_div (a b : Int) : a.ediv b = a / b := rfl

lemma emod_eq_mod (a b : Int) : a.emod b = a % b := rfl

/-- The `divmod` chain of `computePauseDuration` (microseconds) and of
`formatSecondsHMS` (seconds) produce the same hour/minute/second values. -/
lemma pause_duration_decompose (m : Nat) :
    ((m : Int).ediv 3600000000 = ((m / 1000000 : Nat) : Int).ediv 3600)
    ∧ (((m : Int).emod 3600000000).ediv 60000000
        = (((m / 1000000 : Nat) : Int).emod 3600).ediv 60)
    ∧ ((((m : Int).emod 3600000000).emod 60000000).ediv 1000000
        = (((m / 1000000 : Nat) : Int).emod 3600).emod 60) := by
  simp only [ediv_eq_div, emod_eq_mod]
  refine ⟨?_, ?_, ?_⟩
  · norm_cast
    rw [Nat.div_div_eq_div_mul]
  · norm_cast
    rw [← Nat.mod_mul_right_div_self, Nat.div_div_eq_div_mul]
  · norm_cast
    rw [Nat.mod_mod_of_dvd _ (by norm_num : (60000000 : Nat) ∣ 3600000000),
      Nat.mod_mod_of_dvd _ (by norm_num : (60 : Nat) ∣ 3600),
      ← Nat.mod_mul_right_div_self]

/-- On two parseable timestamps in order, the migration's pause duration
is the whole-second difference formatted `HH:MM:SS`. -/
lemma computePauseDuration_eq_format (t1 t2 : String) (d1 d2 : DateTime)
    (h1 : fromisoformat t1 = some d1) (h2 : fromisoformat t2 = some d2)
    (hle : toMicro d1 ≤ toMicro d2) :
    computePauseDuration t1 t2
      = formatSecondsHMS ((toMicro d2 - toMicro d1).ediv 1000000) := by
  obtain ⟨m, hm⟩ : ∃ m : Nat, toMicro d2 - toMicro d1 = (m : Int) :=
    ⟨(toMicro d2 - toMicro d1).toNat, (Int.toNat_of_nonneg (by omega)).symm⟩
  have hdiv : ((m : Int)).ediv 1000000 = ((m / 1000000 : Nat) : Int) := by
    simp only [ediv_eq_div]
    norm_cast
  obtain ⟨e1, e2, e3⟩ := pause_duration_decompose m
  simp only [computePauseDuration, h1, h2, formatSecondsHMS, hm, hdiv, e1, e2, e3]

/-! ### Pause-pairing lemmas -/

lemma migratePausesLoop_legacy (pairs : List (String × String)) (trailing : Option String) :
    migratePausesLoop (legacyPauseEvents pairs trailing) none
      = pairedIntervals pairs trailing := by
  induction pairs with
  | nil =>
    cases trailing <;>
      simp [legacyPauseEvents, pairedIntervals, migratePausesLoop]
  | cons p ps ih =>
    simpa [legacyPauseEvents, pairedIntervals, migratePausesLoop] using ih

/-- An event without `paused_at` arriving while no pause is pending is
dropped by the migration loop. -/
lemma migratePausesLoop_drop (ev : PauseEvent) (rest : List PauseEvent)
    (h : ev.paused_at = none) :
    migratePausesLoop (ev :: rest) none = migratePausesLoop rest none := by
  cases hr : ev.resumed_at <;> simp [migratePausesLoop, h, hr]

lemma countPausedAt_cons (ev : PauseEvent) (rest : List PauseEvent) :
    countPausedAt (ev :: rest)
      = (if ev.paused_at.isSome then 1 else 0) + countPausedAt rest := by
  simp only [countPausedAt, List.filter_cons]
  cases h : ev.paused_at.isSome
  · simp
  · simp
    omega

/-- Interval count of the loop under the no-double-pause condition. -/
lemma migratePausesLoop_length (l : List PauseEvent) :
    ∀ cur : Option (String × String), noDoublePause l cur.isSome = true →
      (migratePausesLoop l cur).length
        = countPausedAt l + (if cur.isSome then 1 else 0) := by
  induction l with
  | nil =>
    intro cur h
    cases cur <;> simp [migratePausesLoop, countPausedAt]
  | cons ev rest ih =>
    intro cur h
    cases hp : ev.paused_at with
    | some p =>
      cases cur with
      | some c =>
        exfalso
        simp [noDoublePause, hp] at h
      | none =>
        have h2 : noDoublePause rest true = true := by
          simpa [noDoublePause, hp] using h
        have hrec := ih (some (p, ev.elapsed_so_far.getD "00:00:00")) (by simpa using h2)
        simp only [migratePausesLoop, hp]
        rw [countPausedAt_cons]
        simp [hp] at hrec ⊢
        omega
    | none =>
      cases hr : ev.resumed_at with
      | some r =>
        have h2 : noDoublePause rest false = true := by
          simpa [noDoublePause, hp, hr] using h
        have hrec := ih none (by simpa using h2)
        cases cur with
        | some c =>
          simp only [migratePausesLoop, hp, hr]
          rw [countPausedAt_cons]
          simp [hp] at hrec ⊢
          omega
        | none =>
          simp only [migratePausesLoop, hp, hr]
          rw [countPausedAt_cons]
          simp [hp] at hrec ⊢
          omega
      | none =>
        have h2 : noDoublePause rest cur.isSome = true := by
          simpa [noDoublePause, hp, hr] using h
        have hrec := ih cur h2
        simp only [migratePausesLoop, hp, hr]
        rw [countPausedAt_cons]
        simp [hp] at hrec ⊢
        omega

/-! ### Claim C2 -/

/-- C2: migrating the legacy flat pause list
`[{paused_at: t1}, {resumed_at: t2}, {paused_at: t3}]` (with `t1 ≤ t2`
parseable ISO timestamps) yields exactly the completed interval
`{paused_at: t1, resumed_at: t2, pause_duration: t2 - t1 as HH:MM:SS}`
followed by `{paused_at: t3, incomplete: true}` with no `resumed_at`;
and in general consecutive `paused_at`/`resumed_at` events are paired in
order, a trailing unmatched `paused_at` becoming an incomplete interval. -/
theorem pause_pairing_spec :
    (∀ (pairs : List (String × String)) (trailing : Option String),
      migrate_pauses_to_integrated_structure (legacyPauseEvents pairs trailing)
        = pairedIntervals pairs trailing)
    ∧ (∀ (t1 t2 t3 : String) (d1 d2 : DateTime),
        fromisoformat t1 = some d1 → fromisoformat t2 = some d2 →
        toMicro d1 ≤ toMicro d2 →
        migrate_pauses_to_integrated_structure
          [⟨some t1, none, none, none, false⟩,
           ⟨none, some t2, none, none, false⟩,
           ⟨some t3, none, none, none, false⟩]
        = [⟨some t1, some t2, some "00:00:00",
              some (formatSecondsHMS ((toMicro d2 - toMicro d1).ediv 1000000)), false⟩,
           ⟨some t3, none, some "00:00:00", none, true⟩]) := by
  constructor
  · exact fun pairs trailing => migratePausesLoop_legacy pairs trailing
  · intro t1 t2 t3 d1 d2 h1 h2 hle
    have hpair := migratePausesLoop_legacy [(t1, t2)] (some t3)
    have hdur := computePauseDuration_eq_format t1 t2 d1 d2 h1 h2 hle
    simpa [legacyPauseEvents, pairedIntervals, migrate_pauses_to_integrated_structure,
      hdur] using hpair

/-- Witness for C2 at concrete timestamps: a five-minute pause followed by
an unmatched one. -/
theorem pause_pairing_spec_witness :
    migrate_pauses_to_integrated_structure
      [⟨some "2024-01-01T10:00:00", none, none, none, false⟩,
       ⟨none, some "2024-01-01T10:05:00", none, none, false⟩,
       ⟨some "2024-01-01T10:30:00", none, none, none, false⟩]
    = [⟨some "2024-01-01T10:00:00", some "2024-01-01T10:05:00", some "00:00:00",
          some "00:05:00", false⟩,
       ⟨some "2024-01-01T10:30:00", none, some "00:00:00", none, true⟩] := by
  have h := pause_pairing_spec.2 "2024-01-01T10:00:00" "2024-01-01T10:05:00"
    "2024-01-01T10:30:00" ⟨2024, 1, 1, 10, 0, 0, 0⟩ ⟨2024, 1, 1, 10, 5, 0, 0⟩
    (by decide) (by decide) (by decide)
  rw [h]
  rfl

/-! ### Claim C10 -/

/-- C10 (amended): an orphan `resumed_at` event (no pending pause) is
silently discarded, and under the no-double-pause condition — no
`paused_at` event arrives while a pause is already pending — the number of
output intervals equals the number of `paused_at` events.  (Without that
condition a later `paused_at` overwrites the pending pause and the count
drops, see the counterexample.) -/
theorem orphan_resume_discarded :
    (∀ (ev : PauseEvent) (rest : List PauseEvent), ev.paused_at = none →
      migrate_pauses_to_integrated_structure (ev :: rest)
        = migrate_pauses_to_integrated_structure rest)
    ∧ (∀ l : List PauseEvent, noDoublePause l false = true →
        (migrate_pauses_to_integrated_structure l).length = countPausedAt l) := by
  constructor
  · intro ev rest h
    exact migratePausesLoop_drop ev rest h
  · intro l h
    have := migratePausesLoop_length l none (by simpa using h)
    simpa [migrate_pauses_to_integrated_structure] using this

/-- Witness for C10: a leading orphan resume is dropped and the count law
holds on `[resume, pause t1, resume, pause t2]`. -/
theorem orphan_resume_discarded_witness :
    migrate_pauses_to_integrated_structure
      [⟨none, some "2024-01-01T09:00:00", none, none, false⟩,
       ⟨some "2024-01-01T10:00:00", none, none, none, false⟩]
      = migrate_pauses_to_integrated_structure
          [⟨some "2024-01-01T10:00:00", none, none, none, false⟩]
    ∧ (migrate_pauses_to_integrated_structure
        [⟨none, some "2024-01-01T09:00:00", none, none, false⟩,
         ⟨some "2024-01-01T10:00:00", none, none, none, false⟩]).length
      = countPausedAt
          [⟨none, some "2024-01-01T09:00:00", none, none, false⟩,
           ⟨some "2024-01-01T10:00:00", none, none, none, false⟩] :=
  ⟨orphan_resume_discarded.1 ⟨none, some "2024-01-01T09:00:00", none, none, false⟩
      [⟨some "2024-01-01T10:00:00", none, none, none, false⟩] rfl,
    orphan_resume_discarded.2
      [⟨none, some "2024-01-01T09:00:00", none, none, false⟩,
       ⟨some "2024-01-01T10:00:00", none, none, none, false⟩] (by decide)⟩

/-- Counterexample to C10 as stated: two consecutive `paused_at` events
produce one interval, not two — the output-interval count is not the
`paused_at` count for every legacy list. -/
theorem orphan_resume_count_counterexample :
    ¬ ((migrate_pauses_to_integrated_structure
        [⟨some "2024-01-01T10:00:00", none, none, none, false⟩,
         ⟨some "2024-01-01T11:00:00", none, none, none, false⟩]).length
      = countPausedAt
          [⟨some "2024-01-01T10:00:00", none, none, none, false⟩,
           ⟨some "2024-01-01T11:00:00", none, none, none, false⟩]) := by
  decide

/-! ### Claim C8 -/

/-- C8: feedback migration on the legacy session
`{note: "Great session\nRating: ★★★☆☆ Tags: Fun",
rating: {stars: 3, tags: ["Fun"], comment: ""}}` yields
`feedback.text = "Great session"` (the embedded rating line stripped),
`feedback.rating` with stars 3 and tags `["Fun"]`, no `note`/`rating`
keys, and the empty legacy comment contributes nothing. -/
theorem feedback_migration_scenario (now : String) :
    migrate_session_to_unified_feedback now
      { start := none, «end» := none, duration := none,
        note := some "Great session\nRating: ★★★☆☆ Tags: Fun",
        rating := some ⟨some 3, some ["Fun"], some "", none⟩,
        feedback := none, pauses := none, extra := [] }
    = { start := none, «end» := none, duration := none, note := none,
        rating := none,
        feedback := some ⟨"Great session", now, some ⟨3, ["Fun"], now⟩⟩,
        pauses := none, extra := [] } := by
  rfl

/-! ### Idempotence lemmas for the feedback migration -/

/-- Migrating a session that already carries no legacy material (no
`note`, no `rating`, no `feedback`) synthesizes nothing. -/
lemma buildLegacyFeedback_none (ts : String) :
    buildLegacyFeedback ts none none = none := rfl

/-- A session with a `feedback` key, or with nothing left to migrate, is
returned unchanged. -/
lemma migrate_session_noop (now : String) (t : Session)
    (h : t.feedback.isSome
      ∨ (t.note = none ∧ t.rating = none ∧ t.feedback = none)) :
    migrate_session_to_unified_feedback now t = t := by
  rcases h with h | ⟨h1, h2, h3⟩
  · simp [migrate_session_to_unified_feedback, h]
  · cases t
    simp_all [migrate_session_to_unified_feedback, buildLegacyFeedback_none]

/-- After one feedback migration the session either has a `feedback` key
or has nothing left to migrate. -/
lemma migrate_session_post (now : String) (s : Session) :
    (migrate_session_to_unified_feedback now s).feedback.isSome
    ∨ ((migrate_session_to_unified_feedback now s).note = none
        ∧ (migrate_session_to_unified_feedback now s).rating = none
        ∧ (migrate_session_to_unified_feedback now s).feedback = none) := by
  by_cases h : s.feedback.isSome
  · left
    simp [migrate_session_to_unified_feedback, h]
  · simp only [migrate_session_to_unified_feedback, h, if_false]
    cases hB : buildLegacyFeedback (s.start.getD now) s.note s.rating <;> simp [hB]

/-- Feedback migration is idempotent (for any pair of wall-clock values). -/
lemma migrate_session_idem (now now2 : String) (s : Session) :
    migrate_session_to_unified_feedback now2 (migrate_session_to_unified_feedback now s)
      = migrate_session_to_unified_feedback now s :=
  migrate_session_noop now2 _ (migrate_session_post now s)

/-! ### Idempotence of the combined per-session migration -/

/-- One migration step on a session whose feedback needs no migration and
whose pauses do not trigger the old-format check is the identity. -/
lemma migrateOneSession_noop (now : String) (t : Session)
    (hfb : t.feedback.isSome ∨ (t.note = none ∧ t.rating = none ∧ t.feedback = none))
    (hp : ∀ ps, t.pauses = some ps → needsPauseMigration ps = false) :
    migrateOneSession now t = t := by
  have h1 := migrate_session_noop now t hfb
  unfold migrateOneSession
  rw [h1]
  cases hps : t.pauses with
  | none => simp [hps]
  | some ps => simp [hps, hp ps hps]

/-- After one combined migration the feedback part is settled. -/
lemma migrateOneSession_post_feedback (now : String) (s : Session) :
    (migrateOneSession now s).feedback.isSome
    ∨ ((migrateOneSession now s).note = none
        ∧ (migrateOneSession now s).rating = none
        ∧ (migrateOneSession now s).feedback = none) := by
  have h := migrate_session_post now s
  unfold migrateOneSession
  cases hps : (migrate_session_to_unified_feedback now s).pauses with
  | none => simpa [hps] using h
  | some ps =>
    by_cases hc : ps ≠ [] ∧ needsPauseMigration ps
    · simpa [hps, hc] using h
    · simpa [hps, hc] using h

/-- The combined per-session migration is idempotent as soon as the first
pass leaves a pause list that no longer triggers the old-format check. -/
lemma migrateOneSession_idem (now now2 : String) (s : Session)
    (h : ∀ ps, (migrateOneSession now s).pauses = some ps →
      needsPauseMigration ps = false) :
    migrateOneSession now2 (migrateOneSession now s) = migrateOneSession now s :=
  migrateOneSession_noop now2 _ (migrateOneSession_post_feedback now s) h

/-! ### Claim C1 -/

/-- C1 (amended): migrating a session that already has a `feedback` key is
a no-op for the feedback migration, and the feedback migration alone is
always idempotent; the full document migration is idempotent exactly on
data whose migrated pause lists no longer look legacy (no surviving
incomplete pause): `migrationSettled` data.  Without that proviso a second
run re-enters pause migration and drops completed intervals (see the
counterexample). -/
theorem migration_idempotent :
    (∀ (now : String) (s : Session), s.feedback.isSome →
      migrate_session_to_unified_feedback now s = s)
    ∧ (∀ (now now2 : String) (s : Session),
        migrate_session_to_unified_feedback now2 (migrate_session_to_unified_feedback now s)
          = migrate_session_to_unified_feedback now s)
    ∧ (∀ (now now2 : String) (data : List (Nat × GameRow)), migrationSettled now data →
        migrate_all_game_sessions now2 (migrate_all_game_sessions now data)
          = migrate_all_game_sessions now data) := by
  refine ⟨?_, ?_, ?_⟩
  · intro now s h
    exact migrate_session_noop now s (Or.inl h)
  · intro now now2 s
    exact migrate_session_idem now now2 s
  · intro now now2 data hsettled
    unfold migrate_all_game_sessions
    rw [List.map_map]
    apply List.map_congr_left
    intro p hp
    have hgame := hsettled p hp
    rcases p with ⟨idx, g⟩
    simp only [Function.comp_apply, Prod.mk.injEq, true_and]
    unfold migrateOneGame
    cases hs : g.sessions with
    | none => simp [hs]
    | some l =>
      by_cases hne : l = []
      · simp [hs, hne]
      · have hmap :
            (l.map (migrateOneSession now)).map (migrateOneSession now2)
              = l.map (migrateOneSession now) := by
          rw [List.map_map]
          apply List.map_congr_left
          intro s hsl
          exact migrateOneSession_idem now now2 s (hgame l hs s hsl)
        simp [hs, hne, hmap]

/-- Counterexample to C1 as stated: a document with one session holding
the legacy pause events `[pause t1, resume t2, pause t3]` migrates to a
completed interval plus an incomplete one; the incomplete entry (only
`paused_at`) re-triggers the old-format check on the second run, which
then drops the completed interval — migration is not idempotent. -/
theorem migration_idempotence_counterexample :
    migrate_all_game_sessions "2024-01-02T00:00:00"
      (migrate_all_game_sessions "2024-01-02T00:00:00"
        [(0, ⟨"G", "", "", .str "", "", "", none,
          some [⟨none, none, none, none, none, none,
            some [⟨some "2024-01-01T10:00:00", none, none, none, false⟩,
                  ⟨none, some "2024-01-01T10:05:00", none, none, false⟩,
                  ⟨some "2024-01-01T10:30:00", none, none, none, false⟩], []⟩],
          none, none⟩)])
    ≠ migrate_all_game_sessions "2024-01-02T00:00:00"
      [(0, ⟨"G", "", "", .str "", "", "", none,
        some [⟨none, none, none, none, none, none,
          some [⟨some "2024-01-01T10:00:00", none, none, none, false⟩,
                ⟨none, some "2024-01-01T10:05:00", none, none, false⟩,
                ⟨some "2024-01-01T10:30:00", none, none, none, false⟩], []⟩],
        none, none⟩)] := by
  decide

/-- Witness for C1: a session that already carries `feedback` is left
unchanged, and a document whose only session has one completed pause (both
keys present) migrates idempotently. -/
theorem migration_idempotent_witness :
    migrate_session_to_unified_feedback "2024-01-02T00:00:00"
      ⟨none, none, none, none, none, some ⟨"x", "T", none⟩, none, []⟩
      = ⟨none, none, none, none, none, some ⟨"x", "T", none⟩, none, []⟩
    ∧ migrate_all_game_sessions "2024-01-03T00:00:00"
        (migrate_all_game_sessions "2024-01-02T00:00:00"
          [(0, ⟨"G", "", "", .str "", "", "", none,
            some [⟨none, none, none, none, none, none,
              some [⟨some "2024-01-01T10:00:00", some "2024-01-01T10:05:00",
                      some "00:00:00", some "00:05:00", false⟩], []⟩],
            none, none⟩)])
      = migrate_all_game_sessions "2024-01-02T00:00:00"
          [(0, ⟨"G", "", "", .str "", "", "", none,
            some [⟨none, none, none, none, none, none,
              some [⟨some "2024-01-01T10:00:00", some "2024-01-01T10:05:00",
                      some "00:00:00", some "00:05:00", false⟩], []⟩],
            none, none⟩)] := by
  constructor
  · exact migration_idempotent.1 "2024-01-02T00:00:00" _ rfl
  · apply migration_idempotent.2.2
    intro p hp l hl s hs ps hps
    simp only [List.mem_singleton] at hp
    subst hp
    simp only at hl
    injection hl with hl
    subst hl
    simp only [List.mem_singleton] at hs
    subst hs
    rw [show (migrateOneSession "2024-01-02T00:00:00"
        (⟨none, none, none, none, none, none,
          some [⟨some "2024-01-01T10:00:00", some "2024-01-01T10:05:00",
                  some "00:00:00", some "00:05:00", false⟩], []⟩ : Session)).pauses
      = some [⟨some "2024-01-01T10:00:00", some "2024-01-01T10:05:00",
                some "00:00:00", some "00:05:00", false⟩] from rfl] at hps
    injection hps with hps
    subst hps
    decide

/-! ### Claim C9 -/

/-- Feedback migration only rewrites `note`, `rating`, `feedback`. -/
lemma migrate_session_frame (now : String) (s : Session) :
    sessionFrameEq s (migrate_session_to_unified_feedback now s) := by
  unfold migrate_session_to_unified_feedback sessionFrameEq
  by_cases h : s.feedback.isSome <;> simp [h]

/-- The combined per-session migration also only rewrites `pauses` beyond
that. -/
lemma migrateOneSession_frame (now : String) (s : Session) :
    sessionFrameEq s (migrateOneSession now s) := by
  have base := migrate_session_frame now s
  unfold migrateOneSession
  cases hps : (migrate_session_to_unified_feedback now s).pauses with
  | none => simpa [hps] using base
  | some ps =>
    by_cases hc : ps ≠ [] ∧ needsPauseMigration ps
    · obtain ⟨b1, b2, b3, b4⟩ := base
      exact ⟨by simp [hps, hc, b1], by simp [hps, hc, b2],
        by simp [hps, hc, b3], by simp [hps, hc, b4]⟩
    · simpa [hps, hc] using base

lemma forall₂_map_migrate (now : String) (l : List Session) :
    List.Forall₂ sessionFrameEq l (l.map (migrateOneSession now)) := by
  induction l with
  | nil => simp
  | cons s rest ih => exact List.Forall₂.cons (migrateOneSession_frame now s) ih

/-- The per-game migration satisfies game-frame equality. -/
lemma migrateOneGame_frame (now : String) (g : GameRow) :
    gameFrameEq g (migrateOneGame now g) := by
  unfold migrateOneGame gameFrameEq
  cases hs : g.sessions with
  | none => simp [hs]
  | some l =>
    by_cases hne : l = []
    · subst hne
      simp [hs]
    · simp [hs, hne, forall₂_map_migrate now l]

/-- C9: document migration preserves the number and order of games and of
sessions, the index attached to each game, every game field other than the
session list, and each session's `start`, `end`, `duration` and unrelated
keys — only `note`/`rating`/`feedback` and `pauses` may change. -/
theorem migration_frame (now : String) (data : List (Nat × GameRow)) :
    List.Forall₂ (fun p q => q.1 = p.1 ∧ gameFrameEq p.2 q.2)
      data (migrate_all_game_sessions now data) := by
  unfold migrate_all_game_sessions
  induction data with
  | nil => simp
  | cons p rest ih =>
    rw [List.map_cons]
    exact List.Forall₂.cons ⟨rfl, migrateOneGame_frame now p.2⟩ ih

/-! ### Claim C3 -/

/-- A string accepted by the three-part parse is nonempty. -/
lemma parseHMS3_ne_empty (s : String) (v : Int) (h : parseHMS3 s = some v) : s ≠ "" := by
  intro he
  subst he
  simp [parseHMS3, pySplit, splitChar] at h

/-- A string accepted by the two-part parse is nonempty. -/
lemma parseHM2_ne_empty (s : String) (v : Int) (h : parseHM2 s = some v) : s ≠ "" := by
  intro he
  subst he
  simp [parseHM2, pySplit, splitChar] at h

/-- C3 (amended): both session-application paths update `totalPlaytime`
incrementally — new value = parsed old value + session duration, formatted
`HH:MM:SS`, with no re-summation over the session list — but they parse the
old value differently: the live-timer path (`update_time_and_date`)
accepts `HH:MM:SS` and falls back to `HH:MM`, while the manual path
(`add_manual_session_to_game`) accepts only `HH:MM:SS` (an `HH:MM` value
fails its parse and is treated as zero, see the counterexample). -/
theorem playtime_accumulation :
    (∀ (now : DateTime) (added : Int) (session : Option Session) (g : GameRow)
        (s : String) (cur : Int),
      g.totalPlaytime = .str s → parseHMS3 s = some cur →
      (update_time_and_date_row now added session g).totalPlaytime
        = .str (formatSecondsHMS (cur + added)))
    ∧ (∀ (now : DateTime) (added : Int) (session : Option Session) (g : GameRow)
        (s : String) (cur : Int),
      g.totalPlaytime = .str s → parseHMS3 s = none → parseHM2 s = some cur →
      (update_time_and_date_row now added session g).totalPlaytime
        = .str (formatSecondsHMS (cur + added)))
    ∧ (∀ (now : DateTime) (session : Session) (g : GameRow)
        (ds s : String) (dur cur : Int),
      session.duration = some ds → parseHMS3 ds = some dur →
      g.totalPlaytime = .str s → parseHMS3 s = some cur →
      (add_manual_session_row now session g).totalPlaytime
        = .str (formatSecondsHMS (cur + dur))) := by
  refine ⟨?_, ?_, ?_⟩
  · intro now added session g s cur hstr hp
    have hne := parseHMS3_ne_empty s cur hp
    cases session <;>
      simp [update_time_and_date_row, currentTimeSecondsUpdate, hstr, hne, hp,
        format_timedelta_with_seconds]
  · intro now added session g s cur hstr hp3 hp2
    have hne := parseHM2_ne_empty s cur hp2
    cases session <;>
      simp [update_time_and_date_row, currentTimeSecondsUpdate, hstr, hne, hp3, hp2,
        format_timedelta_with_seconds]
  · intro now session g ds s dur cur hdur hpd hstr hp
    have hne := parseHMS3_ne_empty s cur hp
    cases hlatest : get_latest_session_end_time (g.sessions.getD [] ++ [session]) <;>
      simp [add_manual_session_row, currentTimeSecondsManual, hdur, hpd, hstr, hne, hp,
        hlatest, format_timedelta_with_seconds]

/-- Witness for C3: the spec's own example, `"01:00:00" + "00:30:00" =
"01:30:00"`, on both paths. -/
theorem playtime_accumulation_witness :
    (update_time_and_date_row ⟨2024, 5, 1, 12, 0, 0, 0⟩ 1800 none
        ⟨"G", "", "", .str "01:00:00", "Pending", "", none, some [], some [], none⟩).totalPlaytime
      = .str "01:30:00"
    ∧ (add_manual_session_row ⟨2024, 5, 1, 12, 0, 0, 0⟩
        ⟨none, none, some "00:30:00", none, none, none, none, []⟩
        ⟨"G", "", "", .str "01:00:00", "Pending", "", none, some [], some [], none⟩).totalPlaytime
      = .str "01:30:00" := by
  constructor
  · have h := playtime_accumulation.1 ⟨2024, 5, 1, 12, 0, 0, 0⟩ 1800 none
      ⟨"G", "", "", .str "01:00:00", "Pending", "", none, some [], some [], none⟩
      "01:00:00" 3600 rfl (by decide)
    rw [h]
    rfl
  · have h := playtime_accumulation.2.2 ⟨2024, 5, 1, 12, 0, 0, 0⟩
      ⟨none, none, some "00:30:00", none, none, none, none, []⟩
      ⟨"G", "", "", .str "01:00:00", "Pending", "", none, some [], some [], none⟩
      "00:30:00" "01:00:00" 1800 3600 rfl (by decide) rfl (by decide)
    rw [h]
    rfl

/-- Counterexample to C3 as stated: a stored `totalPlaytime` of `"01:00"`
parses as `HH:MM` (one hour), yet applying a manual session of duration
`"00:30:00"` yields `"00:30:00"`, not `"01:30:00"` — the manual path
treats the `HH:MM` value as zero. -/
theorem playtime_accumulation_counterexample :
    parseHM2 "01:00" = some 3600
    ∧ (add_manual_session_row ⟨2024, 5, 1, 12, 0, 0, 0⟩
        ⟨none, none, some "00:30:00", none, none, none, none, []⟩
        ⟨"G", "", "", .str "01:00", "Pending", "", none, some [], some [], none⟩).totalPlaytime
      = .str "00:30:00"
    ∧ PlaytimeValue.str "00:30:00" ≠ .str (formatSecondsHMS (3600 + 1800)) := by
  refine ⟨by decide, by decide, by decide⟩

/-! ### Claim C4 -/

/-- The step keeps `none` only when the session's `end` is unusable. -/
lemma latestEndStep_none (acc : Option DateTime) (s : Session)
    (h : latestEndStep acc s = none) :
    acc = none ∧ ∀ e, s.«end» = some e → fromisoformat e = none := by
  cases hend : s.«end» with
  | none =>
    unfold latestEndStep at h
    rw [hend] at h
    exact ⟨h, by intro e he; exact Option.noConfusion he⟩
  | some e =>
    unfold latestEndStep at h
    rw [hend] at h
    simp only at h
    cases hiso : fromisoformat e with
    | none =>
      rw [hiso] at h
      simp only at h
      refine ⟨h, ?_⟩
      intro e2 he2
      have he3 := Option.some.inj he2
      subst he3
      exact hiso
    | some dt2 =>
      rw [hiso] at h
      simp only at h
      exfalso
      cases hacc : acc with
      | none =>
        rw [hacc] at h
        simp only at h
        exact Option.noConfusion h
      | some cur =>
        rw [hacc] at h
        simp only at h
        by_cases hcmp : toMicro dt2 > toMicro cur
        · rw [if_pos hcmp] at h
          exact Option.noConfusion h
        · rw [if_neg hcmp] at h
          exact Option.noConfusion h

/-- The step's result bounds both the accumulator and the session's own
parseable `end`, and is attained by one of them. -/
lemma latestEndStep_some (acc : Option DateTime) (s : Session) (dt : DateTime)
    (h : latestEndStep acc s = some dt) :
    (acc = some dt ∨ (∃ e, s.«end» = some e ∧ fromisoformat e = some dt))
    ∧ (∀ d, acc = some d → toMicro d ≤ toMicro dt)
    ∧ (∀ e d, s.«end» = some e → fromisoformat e = some d →
        toMicro d ≤ toMicro dt) := by
  cases hend : s.«end» with
  | none =>
    unfold latestEndStep at h
    rw [hend] at h
    subst h
    refine ⟨Or.inl rfl, ?_, ?_⟩
    · intro d hd
      have hd2 := Option.some.inj hd
      subst hd2
      exact le_refl _
    · intro e d he hd
      exact Option.noConfusion he
  | some e =>
    unfold latestEndStep at h
    rw [hend] at h
    simp only at h
    cases hiso : fromisoformat e with
    | none =>
      rw [hiso] at h
      simp only at h
      subst h
      refine ⟨Or.inl rfl, ?_, ?_⟩
      · intro d hd
        have hd2 := Option.some.inj hd
        subst hd2
        exact le_refl _
      · intro e2 d he2 hd
        have he3 := Option.some.inj he2
        subst he3
        rw [hiso] at hd
        exact Option.noConfusion hd
    | some dt2 =>
      rw [hiso] at h
      simp only at h
      have hsame : ∀ e2 d, (some e : Option String) = some e2 →
          fromisoformat e2 = some d → d = dt2 := by
        intro e2 d he2 hd
        have he3 := Option.some.inj he2
        subst he3
        rw [hiso] at hd
        exact (Option.some.inj hd).symm
      cases hacc : acc with
      | none =>
        rw [hacc] at h
        simp only at h
        have h2 := Option.some.inj h
        subst h2
        refine ⟨Or.inr ⟨e, rfl, hiso⟩, ?_, ?_⟩
        · intro d hd
          exact Option.noConfusion hd
        · intro e2 d he2 hd
          rw [hsame e2 d he2 hd]
      | some cur =>
        rw [hacc] at h
        simp only at h
        by_cases hcmp : toMicro dt2 > toMicro cur
        · rw [if_pos hcmp] at h
          have h2 := Option.some.inj h
          subst h2
          refine ⟨Or.inr ⟨e, rfl, hiso⟩, ?_, ?_⟩
          · intro d hd
            have hd2 := Option.some.inj hd
            subst hd2
            omega
          · intro e2 d he2 hd
            rw [hsame e2 d he2 hd]
        · rw [if_neg hcmp] at h
          have h2 := Option.some.inj h
          subst h2
          refine ⟨Or.inl rfl, ?_, ?_⟩
          · intro d hd
            have hd2 := Option.some.inj hd
            subst hd2
            exact le_refl _
          · intro e2 d he2 hd
            rw [hsame e2 d he2 hd]
            omega

lemma latestEnd_foldl :
    ∀ (l : List Session) (acc : Option DateTime),
      latestEndChar l acc (l.foldl latestEndStep acc) := by
  intro l
  induction l with
  | nil =>
    intro acc
    cases acc with
    | none => exact ⟨rfl, by simp⟩
    | some d =>
      refine ⟨Or.inl rfl, ?_, by simp⟩
      intro d2 h
      have h2 := Option.some.inj h
      subst h2
      exact le_refl _
  | cons s rest ih =>
    intro acc
    rw [List.foldl_cons]
    have hstep := ih (latestEndStep acc s)
    cases hres : List.foldl latestEndStep (latestEndStep acc s) rest with
    | none =>
      rw [hres] at hstep
      simp only [latestEndChar] at hstep ⊢
      obtain ⟨h1, h2⟩ := hstep
      obtain ⟨ha, hs0⟩ := latestEndStep_none acc s h1
      refine ⟨ha, ?_⟩
      intro t ht e he
      rcases List.mem_cons.mp ht with h | h
      · rw [h] at he
        exact hs0 e he
      · exact h2 t h e he
    | some dt =>
      rw [hres] at hstep
      simp only [latestEndChar] at hstep ⊢
      obtain ⟨h1, h2, h3⟩ := hstep
      refine ⟨?_, ?_, ?_⟩
      · rcases h1 with h1 | ⟨t, ht, het⟩
        · obtain ⟨hor, _, _⟩ := latestEndStep_some acc s dt h1
          rcases hor with h | ⟨e, he, hiso⟩
          · exact Or.inl h
          · exact Or.inr ⟨s, List.mem_cons_self s rest, e, he, hiso⟩
        · exact Or.inr ⟨t, List.mem_cons_of_mem s ht, het⟩
      · intro d hd
        cases hA : latestEndStep acc s with
        | none =>
          obtain ⟨ha, _⟩ := latestEndStep_none acc s hA
          rw [ha] at hd
          exact Option.noConfusion hd
        | some mid =>
          obtain ⟨_, hb, _⟩ := latestEndStep_some acc s mid hA
          have hb1 := hb d hd
          have hb2 := h2 mid hA
          omega
      · intro t ht e d he hd
        rcases List.mem_cons.mp ht with h | h
        · rw [h] at he
          cases hA : latestEndStep acc s with
          | none =>
            obtain ⟨_, hs2⟩ := latestEndStep_none acc s hA
            rw [hs2 e he] at hd
            exact Option.noConfusion hd
          | some mid =>
            obtain ⟨_, _, hc⟩ := latestEndStep_some acc s mid hA
            have hb1 := hc e d he hd
            have hb2 := h2 mid hA
            omega
        · exact h3 t h e d he hd

/-- The result of `get_latest_session_end_time` is the attained maximum of
the parseable session `end` timestamps (`none` when there is none). -/
lemma get_latest_spec (sessions : List Session) :
    latestEndChar sessions none (get_latest_session_end_time sessions) :=
  latestEnd_foldl sessions none

/-- C4 (amended): only `add_manual_session_to_game` (with a well-formed
`HH:MM:SS` duration) sets `lastPlayed` to the latest parseable session
`end` — the attained maximum per `latestEndChar`, formatted
`'%Y-%m-%d %H:%M:%S'` — falling back to the current time when no session
`end` parses.  The live-timer path (`update_time_and_date`) instead sets
`lastPlayed` to the current wall-clock time unconditionally, even when a
stored session has a later `end` (see the counterexample). -/
theorem last_played_update :
    (∀ (now : DateTime) (added : Int) (session : Option Session) (g : GameRow),
      (update_time_and_date_row now added session g).lastPlayed
        = some (strftimeSpace now))
    ∧ (∀ (now : DateTime) (session : Session) (g : GameRow) (ds : String) (dur : Int),
        session.duration = some ds → parseHMS3 ds = some dur →
        (add_manual_session_row now session g).lastPlayed
          = some (strftimeSpace
              ((get_latest_session_end_time (g.sessions.getD [] ++ [session])).getD now)))
    ∧ (∀ sessions : List Session,
        latestEndChar sessions none (get_latest_session_end_time sessions)) := by
  refine ⟨?_, ?_, ?_⟩
  · intro now added session g
    cases session <;> simp [update_time_and_date_row]
  · intro now session g ds dur hdur hpd
    cases hl : get_latest_session_end_time (g.sessions.getD [] ++ [session]) <;>
      simp [add_manual_session_row, hdur, hpd, hl]
  · exact get_latest_spec

/-- Witness for C4: the spec's manual-session scenario — a session ending
`2024-01-01T21:30:00` added to a game with no prior sessions yields
`lastPlayed = "2024-01-01 21:30:00"`; and the live path stamps the current
time. -/
theorem last_played_update_witness :
    (add_manual_session_row ⟨2024, 1, 1, 22, 0, 0, 0⟩
        ⟨some "2024-01-01T19:00:00", some "2024-01-01T21:30:00", some "02:30:00",
          none, none, none, some [], []⟩
        ⟨"G", "", "", .str "01:00:00", "Pending", "", none, some [], some [], none⟩).lastPlayed
      = some "2024-01-01 21:30:00"
    ∧ (update_time_and_date_row ⟨2024, 1, 1, 22, 0, 0, 0⟩ 9000 none
        ⟨"G", "", "", .str "01:00:00", "Pending", "", none, some [], some [], none⟩).lastPlayed
      = some "2024-01-01 22:00:00" := by
  constructor
  · have h := last_played_update.2.1 ⟨2024, 1, 1, 22, 0, 0, 0⟩
      ⟨some "2024-01-01T19:00:00", some "2024-01-01T21:30:00", some "02:30:00",
        none, none, none, some [], []⟩
      ⟨"G", "", "", .str "01:00:00", "Pending", "", none, some [], some [], none⟩
      "02:30:00" 9000 rfl (by decide)
    rw [h]
    rfl
  · have h := last_played_update.1 ⟨2024, 1, 1, 22, 0, 0, 0⟩ 9000 none
      ⟨"G", "", "", .str "01:00:00", "Pending", "", none, some [], some [], none⟩
    rw [h]
    rfl

/-- Counterexample to C4 as stated: the live-timer update stamps `now`
even though an already-stored session ends later (`2030-01-01`), so
`lastPlayed` is not the maximum session `end`. -/
theorem last_played_counterexample :
    (update_time_and_date_row ⟨2024, 5, 1, 12, 0, 30, 0⟩ 1800
        (some ⟨some "2024-05-01T11:30:00", some "2024-05-01T12:00:00",
          some "00:30:00", none, none, none, some [], []⟩)
        ⟨"G", "", "", .str "01:00:00", "Pending", "", none,
          some [⟨some "2029-12-31T23:00:00", some "2030-01-01T00:00:00",
            some "01:00:00", none, none, none, some [], []⟩],
          some [], none⟩).lastPlayed
      = some "2024-05-01 12:00:30"
    ∧ get_latest_session_end_time
        ([⟨some "2029-12-31T23:00:00", some "2030-01-01T00:00:00",
            some "01:00:00", none, none, none, some [], []⟩]
          ++ [⟨some "2024-05-01T11:30:00", some "2024-05-01T12:00:00",
            some "00:30:00", none, none, none, some [], []⟩])
      = some ⟨2030, 1, 1, 0, 0, 0, 0⟩
    ∧ (some "2024-05-01 12:00:30" : Option String)
      ≠ some (strftimeSpace ⟨2030, 1, 1, 0, 0, 0, 0⟩) := by
  refine ⟨rfl, by decide, by decide⟩

/-! ### Claim C5 -/

lemma loadNormalize_three (s : String) (h3 : (pySplit s ':').length = 3) :
    loadNormalizeTimePlayed s = some s := by
  unfold loadNormalizeTimePlayed
  by_cases hcond : s ≠ "" ∧ pyContains s ":" = true
  · rw [if_pos hcond]
    obtain ⟨a, b, c, hsp⟩ := List.length_eq_three.mp h3
    rw [hsp]
    simp
  · rw [if_neg hcond]

lemma loadNormalize_skip (s : String) (h : s = "" ∨ pyContains s ":" = false) :
    loadNormalizeTimePlayed s = some s := by
  unfold loadNormalizeTimePlayed
  rcases h with h | h
  · subst h
    simp
  · simp [h]

/-- On a canonical row, loading undoes saving exactly. -/
lemma load_save_row (g : GameRow) (hc : canonicalRow g) :
    load_game_row (save_game_record g) = some g := by
  obtain ⟨name, rel, plat, tp, stat, own, lp, sess, shist, rat⟩ := g
  obtain ⟨htp, hst, how, hlp, ⟨l, hl⟩, ⟨sh, hsh⟩⟩ := hc
  subst hl
  subst hsh
  cases tp with
  | td t => exact htp.elim
  | str s =>
    replace htp : s = "" ∨ pyContains s ":" = false ∨ (pySplit s ':').length = 3 := htp
    replace hst : stat = "Pending" ∨ stat = "In progress" ∨ stat = "Completed" := hst
    replace how : own = "✅" ∨ own = "" := how
    replace hlp : lp = none ∨ ∃ t, lp = some t ∧ t ≠ "" := hlp
    have hnorm : loadNormalizeTimePlayed s = some s := by
      rcases htp with h | h | h
      · exact loadNormalize_skip s (Or.inl h)
      · exact loadNormalize_skip s (Or.inr h)
      · exact loadNormalize_three s h
    have hid : ∀ t : String, (if t ≠ "" then t else "") = t := by
      intro t
      by_cases h : t = "" <;> simp [h]
    rcases hst with h | h | h <;> subst h <;>
      rcases how with h | h <;> subst h <;>
        rcases hlp with h2 | ⟨lps, h2, h3⟩ <;> subst h2 <;>
          first
          | simp [save_game_record, load_game_row, hnorm, hid, h3]
          | simp [save_game_record, load_game_row, hnorm, hid]

lemma load_save_enumFrom (k : Nat) (rows : List GameRow)
    (h : ∀ g ∈ rows, canonicalRow g) :
    ((List.enumFrom k (rows.map save_game_record)).filterMap
        (fun p => (load_game_row p.2).map (fun r => (p.1, r)))).map Prod.snd
      = rows := by
  induction rows generalizing k with
  | nil => rfl
  | cons g rest ih =>
    have hg := h g (List.mem_cons_self g rest)
    have hrest : ∀ g2 ∈ rest, canonicalRow g2 :=
      fun g2 hm => h g2 (List.mem_cons_of_mem g hm)
    simp [load_save_row g hg, ih (k + 1) hrest]

/-- C5 (amended): for a game list whose rows are already in canonical
shape (valid status, checkmark-or-empty owned marker, absent-or-nonempty
`lastPlayed`, list slots present, playtime a string that load does not
rewrite), `save_to_gmd` followed by `load_from_gmd` returns exactly the
same rows, and the `needs_migration` flag is `false` because save writes
`feedback_format_version = "unified"` and `pause_format_version =
"integrated"`.  (Non-canonical rows are normalised by the round trip —
see the counterexample.) -/
theorem save_load_round_trip (now : String) (data : List (Nat × GameRow))
    (h : ∀ p ∈ data, canonicalRow p.2) :
    (load_from_gmd (save_to_gmd now data)).2 = false
    ∧ ((load_from_gmd (save_to_gmd now data)).1).map Prod.snd
      = data.map Prod.snd := by
  constructor
  · rfl
  · have hmain := load_save_enumFrom 0 (data.map Prod.snd)
      (by intro g hg
          obtain ⟨p, hp, hpe⟩ := List.mem_map.mp hg
          exact hpe ▸ h p hp)
    rw [List.map_map] at hmain
    unfold load_from_gmd save_to_gmd List.enum
    simp only [Function.comp] at hmain ⊢
    exact hmain

/-- Witness for C5: a concrete one-game canonical list survives the round
trip unchanged with `needs_migration = false`. -/
theorem save_load_round_trip_witness :
    (load_from_gmd (save_to_gmd "M"
        [(0, ⟨"G", "2020-01-01", "PC", .str "01:00:00", "Pending", "✅",
          some "2024-01-01 10:00:00", some [], some [], none⟩)])).2 = false
    ∧ ((load_from_gmd (save_to_gmd "M"
        [(0, ⟨"G", "2020-01-01", "PC", .str "01:00:00", "Pending", "✅",
          some "2024-01-01 10:00:00", some [], some [], none⟩)])).1).map Prod.snd
      = [⟨"G", "2020-01-01", "PC", .str "01:00:00", "Pending", "✅",
          some "2024-01-01 10:00:00", some [], some [], none⟩] :=
  save_load_round_trip "M"
    [(0, ⟨"G", "2020-01-01", "PC", .str "01:00:00", "Pending", "✅",
      some "2024-01-01 10:00:00", some [], some [], none⟩)]
    (by intro p hp
        simp only [List.mem_singleton] at hp
        subst hp
        exact ⟨by decide, Or.inl rfl, Or.inl rfl,
          Or.inr ⟨"2024-01-01 10:00:00", rfl, by decide⟩, ⟨[], rfl⟩, ⟨[], rfl⟩⟩)

/-- Counterexample to C5 as stated: a game list with an empty status needs
no migration, yet the round trip rewrites the status to `"Pending"`, so
the loaded rows differ from the pre-save state. -/
theorem save_load_counterexample :
    migrate_all_game_sessions "N"
      [(0, ⟨"G", "", "", .str "01:00:00", "", "", none, some [], some [], none⟩)]
      = [(0, ⟨"G", "", "", .str "01:00:00", "", "", none, some [], some [], none⟩)]
    ∧ ((load_from_gmd (save_to_gmd "M"
        [(0, ⟨"G", "", "", .str "01:00:00", "", "", none, some [], some [], none⟩)])).1).map
          Prod.snd
      ≠ [⟨"G", "", "", .str "01:00:00", "", "", none, some [], some [], none⟩] := by
  refine ⟨by decide, by decide⟩

/-! ### Claim C6 -/

/-- C6: when the file exists but its contents fail JSON decoding,
`load_from_gmd` renames it to a timestamped backup name, raises
`FileNotFoundError` to the caller, returns no (partial) game list, and the
corrupted bytes stay readable unchanged under the backup name. -/
theorem corrupted_load_backup (now : DateTime) (fs : FS) (filename raw : String)
    (h : fsLookup fs filename = some (.invalid raw)) :
    (load_from_gmd_fs now fs filename).1
      = .error (.fileNotFound ("Invalid JSON in " ++ filename))
    ∧ fsLookup (load_from_gmd_fs now fs filename).2
        (filename ++ ".backup-" ++ strftimeCompact now) = some (.invalid raw)
    ∧ (∀ result, (load_from_gmd_fs now fs filename).1 ≠ .ok result) := by
  unfold load_from_gmd_fs
  rw [h]
  refine ⟨rfl, ?_, ?_⟩
  · simp [fsLookup]
  · intro result hcontra
    simp at hcontra

/-- Witness for C6: a one-file directory holding undecodable bytes. -/
theorem corrupted_load_backup_witness :
    (load_from_gmd_fs ⟨2024, 5, 1, 12, 0, 0, 0⟩ [("games.gmd", .invalid "bad-json")]
        "games.gmd").1
      = .error (.fileNotFound ("Invalid JSON in " ++ "games.gmd"))
    ∧ fsLookup (load_from_gmd_fs ⟨2024, 5, 1, 12, 0, 0, 0⟩
        [("games.gmd", .invalid "bad-json")] "games.gmd").2
        ("games.gmd" ++ ".backup-" ++ strftimeCompact ⟨2024, 5, 1, 12, 0, 0, 0⟩)
      = some (.invalid "bad-json") :=
  ⟨(corrupted_load_backup ⟨2024, 5, 1, 12, 0, 0, 0⟩
      [("games.gmd", .invalid "bad-json")] "games.gmd" "bad-json" (by decide)).1,
   (corrupted_load_backup ⟨2024, 5, 1, 12, 0, 0, 0⟩
      [("games.gmd", .invalid "bad-json")] "games.gmd" "bad-json" (by decide)).2.1⟩

/-! ### Claim C7 -/

/-- Attaching feedback never changes `start`, `end` or `duration`. -/
lemma attachManualFeedback_frame (base : Session) (ef : Bool) (ft : String)
    (er : Bool) (stars : Int) (tags : List Bool) (nowIso : String) :
    (attachManualFeedback base ef ft er stars tags nowIso).start = base.start
    ∧ (attachManualFeedback base ef ft er stars tags nowIso).«end» = base.«end»
    ∧ (attachManualFeedback base ef ft er stars tags nowIso).duration = base.duration := by
  unfold attachManualFeedback
  split
  · refine ⟨?_, ?_, ?_⟩ <;>
      simp [apply_ite Session.start, apply_ite Session.«end», apply_ite Session.duration]
  · exact ⟨rfl, rfl, rfl⟩

/-- C7: the `Add Session` handler rejects (returns nothing, leaving state
untouched) every input whose date/time fields fail `strptime` after
stripping, and every parseable input with `end ≤ start`; a session is
produced exactly when `end` is strictly after `start`, and then its
`start`/`end` are the parsed datetimes in ISO form and its duration is
`end - start` formatted `HH:MM:SS`. -/
theorem manual_session_validation (sd st ed et : String) (ef : Bool) (ft : String)
    (er : Bool) (stars : Int) (tags : List Bool) (nowIso : String) :
    (parsedManualInputs sd st ed et = none →
      show_manual_session_popup_add sd st ed et ef ft er stars tags nowIso = none)
    ∧ (∀ sDT eDT, parsedManualInputs sd st ed et = some (sDT, eDT) →
        toMicro eDT ≤ toMicro sDT →
        show_manual_session_popup_add sd st ed et ef ft er stars tags nowIso = none)
    ∧ (∀ sDT eDT, parsedManualInputs sd st ed et = some (sDT, eDT) →
        toMicro sDT < toMicro eDT →
        ∃ sess, show_manual_session_popup_add sd st ed et ef ft er stars tags nowIso
            = some sess
          ∧ sess.start = some (isoformatDT sDT)
          ∧ sess.«end» = some (isoformatDT eDT)
          ∧ sess.duration
            = some (format_timedelta_with_seconds (.td (toSec eDT - toSec sDT)))) := by
  unfold show_manual_session_popup_add parsedManualInputs
  by_cases hempty : pyStrip sd = "" ∨ pyStrip st = "" ∨ pyStrip ed = "" ∨ pyStrip et = ""
  · rw [if_pos hempty]
    have hy : ∀ u : String, u = "" → strptimeYmd u = none := by
      intro u hu
      subst hu
      rfl
    have hh : ∀ u : String, u = "" → strptimeHM u = none := by
      intro u hu
      subst hu
      rfl
    have hnone : (match strptimeYmd (pyStrip sd), strptimeHM (pyStrip st),
        strptimeYmd (pyStrip ed), strptimeHM (pyStrip et) with
      | some (sy, sm, sdd), some (sh, smi), some (ey, em, edd), some (eh, emi) =>
          some ((⟨sy, sm, sdd, sh, smi, 0, 0⟩ : DateTime),
            (⟨ey, em, edd, eh, emi, 0, 0⟩ : DateTime))
      | _, _, _, _ => none) = none := by
      rcases hempty with h | h | h | h
      · rw [hy _ h]
      · rw [hh _ h]
        cases hx1 : strptimeYmd (pyStrip sd) with
        | none => rfl
        | some v =>
          obtain ⟨a, b, c⟩ := v
          rfl
      · rw [hy _ h]
        cases hx1 : strptimeYmd (pyStrip sd) with
        | none => rfl
        | some v =>
          obtain ⟨a, b, c⟩ := v
          cases hx2 : strptimeHM (pyStrip st) with
          | none => rfl
          | some w =>
            obtain ⟨d, e⟩ := w
            rfl
      · rw [hh _ h]
        cases hx1 : strptimeYmd (pyStrip sd) with
        | none => rfl
        | some v =>
          obtain ⟨a, b, c⟩ := v
          cases hx2 : strptimeHM (pyStrip st) with
          | none => rfl
          | some w =>
            obtain ⟨d, e⟩ := w
            cases hx3 : strptimeYmd (pyStrip ed) with
            | none => rfl
            | some u =>
              obtain ⟨a2, b2, c2⟩ := u
              rfl
    rw [hnone]
    exact ⟨fun _ => rfl, fun _ _ hc _ => Option.noConfusion hc,
      fun _ _ hc _ => Option.noConfusion hc⟩
  · rw [if_neg hempty]
    cases h1 : strptimeYmd (pyStrip sd) with
    | none =>
      exact ⟨fun _ => rfl, fun _ _ hc _ => Option.noConfusion hc,
        fun _ _ hc _ => Option.noConfusion hc⟩
    | some v1 =>
      obtain ⟨sy, sm, sdd⟩ := v1
      cases h2 : strptimeHM (pyStrip st) with
      | none =>
        exact ⟨fun _ => rfl, fun _ _ hc _ => Option.noConfusion hc,
          fun _ _ hc _ => Option.noConfusion hc⟩
      | some v2 =>
        obtain ⟨sh, smi⟩ := v2
        cases h3 : strptimeYmd (pyStrip ed) with
        | none =>
          exact ⟨fun _ => rfl, fun _ _ hc _ => Option.noConfusion hc,
            fun _ _ hc _ => Option.noConfusion hc⟩
        | some v3 =>
          obtain ⟨ey, em, edd⟩ := v3
          cases h4 : strptimeHM (pyStrip et) with
          | none =>
            exact ⟨fun _ => rfl, fun _ _ hc _ => Option.noConfusion hc,
              fun _ _ hc _ => Option.noConfusion hc⟩
          | some v4 =>
            obtain ⟨eh, emi⟩ := v4
            refine ⟨fun hc => Option.noConfusion hc, ?_, ?_⟩
            · intro sDT eDT hc hle
              have hinj := Option.some.inj hc
              have hsd : (⟨sy, sm, sdd, sh, smi, 0, 0⟩ : DateTime) = sDT :=
                congrArg Prod.fst hinj
              have hed : (⟨ey, em, edd, eh, emi, 0, 0⟩ : DateTime) = eDT :=
                congrArg Prod.snd hinj
              subst hsd
              subst hed
              simp [hle]
            · intro sDT eDT hc hlt
              have hinj := Option.some.inj hc
              have hsd : (⟨sy, sm, sdd, sh, smi, 0, 0⟩ : DateTime) = sDT :=
                congrArg Prod.fst hinj
              have hed : (⟨ey, em, edd, eh, emi, 0, 0⟩ : DateTime) = eDT :=
                congrArg Prod.snd hinj
              subst hsd
              subst hed
              have hnle : ¬ (toMicro (⟨ey, em, edd, eh, emi, 0, 0⟩ : DateTime)
                  ≤ toMicro (⟨sy, sm, sdd, sh, smi, 0, 0⟩ : DateTime)) := by omega
              refine ⟨attachManualFeedback
                  ⟨some (isoformatDT ⟨sy, sm, sdd, sh, smi, 0, 0⟩),
                    some (isoformatDT ⟨ey, em, edd, eh, emi, 0, 0⟩),
                    some (format_timedelta_with_seconds (.td
                      (toSec ⟨ey, em, edd, eh, emi, 0, 0⟩
                        - toSec ⟨sy, sm, sdd, sh, smi, 0, 0⟩))),
                    none, none, none, some [], []⟩ ef ft er stars tags nowIso,
                ?_,
                (attachManualFeedback_frame _ ef ft er stars tags nowIso).1,
                (attachManualFeedback_frame _ ef ft er stars tags nowIso).2.1,
                (attachManualFeedback_frame _ ef ft er stars tags nowIso).2.2⟩
              simp [hnle]

/-- Witness for C7: the spec's manual-session scenario `19:00`–`21:30` on
`2024-01-01` is accepted with duration `"02:30:00"`. -/
theorem manual_session_validation_witness :
    ∃ sess, show_manual_session_popup_add "2024-01-01" "19:00" "2024-01-01" "21:30"
        false "" false 0 [] "N" = some sess
      ∧ sess.start = some "2024-01-01T19:00:00"
      ∧ sess.«end» = some "2024-01-01T21:30:00"
      ∧ sess.duration = some "02:30:00" := by
  obtain ⟨sess, h1, h2, h3, h4⟩ :=
    (manual_session_validation "2024-01-01" "19:00" "2024-01-01" "21:30"
      false "" false 0 [] "N").2.2
      ⟨2024, 1, 1, 19, 0, 0, 0⟩ ⟨2024, 1, 1, 21, 30, 0, 0⟩ (by decide) (by decide)
  exact ⟨sess, h1, by rw [h2]; rfl, by rw [h3]; rfl, by rw [h4]; rfl⟩

end GameTracker
